import Mathlib

/-!
Verification of the expense tracker (`src/Expensetracker.py`): a shallow
embedding of its SQLite-backed store, its CRUD operations, its aggregate
queries, its date validation, and the category bar chart, together with
theorems settling the specification claims.

The on-disk table `expenses(id INTEGER PRIMARY KEY AUTOINCREMENT, date TEXT,
category TEXT, description TEXT, amount REAL)` is modelled as a list of
records in rowid order together with the next id AUTOINCREMENT will assign
(AUTOINCREMENT ids start at 1, increase monotonically and are never reused,
even after deletes).  The REAL `amount` column is modelled by `ℚ`.
-/

/-- One row of the `expenses` table. -/
structure Record where
  id : Nat
  date : String
  category : String
  description : String
  amount : ℚ
  deriving Repr, DecidableEq

/-- The database state: rows in storage order plus AUTOINCREMENT's next id. -/
structure Store where
  records : List Record
  nextId : Nat
  deriving Repr, DecidableEq

/-- The freshly created table (`create_table` on a new database file):
no rows, AUTOINCREMENT starts at 1. -/
def emptyStore : Store := ⟨[], 1⟩

/-- Embeds `add_expense(date, category, description, amount)`: the INSERT appends a
row whose id is the next AUTOINCREMENT value. -/
def add_expense (s : Store) (date category description : String) (amount : ℚ) : Store :=
  { records := s.records ++ [⟨s.nextId, date, category, description, amount⟩],
    nextId := s.nextId + 1 }

/-- Embeds `view_expenses`: `SELECT * FROM expenses` returns every row in storage
order (rowid order, i.e. insertion order). -/
def view_expenses (s : Store) : List Record := s.records

/-- SQLite `SUM` over a column: `NULL` (here `none`) when there are no rows,
otherwise the arithmetic sum. -/
def sqlSum (l : List ℚ) : Option ℚ :=
  match l with
  | [] => none
  | _ => some l.sum

/-- The Python idiom `total if total else 0` applied to a fetched SUM:
`None` and `0.0` are falsy and give `0`; any other value passes through. -/
def pyTruthyOrZero (o : Option ℚ) : ℚ :=
  match o with
  | none => 0
  | some t => if t = 0 then 0 else t

/-- Embeds `total_expense`: `SELECT SUM(amount) FROM expenses`, then
`total if total else 0`. -/
def total_expense (s : Store) : ℚ :=
  pyTruthyOrZero (sqlSum (s.records.map Record.amount))

/-- Embeds `delete_expense(id)`: `DELETE FROM expenses WHERE id=?`. -/
def delete_expense (s : Store) (i : Nat) : Store :=
  { s with records := s.records.filter (fun r => r.id != i) }

/-- Embeds `update_expense(id, date, category, description, amount)`:
`UPDATE expenses SET date=?, category=?, description=?, amount=? WHERE id=?`.
Every row whose id matches gets the new field values; its id is untouched. -/
def update_expense (s : Store) (i : Nat) (date category description : String)
    (amount : ℚ) : Store :=
  { s with
    records := s.records.map (fun r =>
      if r.id = i then ⟨r.id, date, category, description, amount⟩ else r) }

/-- Embeds `monthly_expense`: `SELECT SUM(amount) FROM expenses WHERE
substr(date,1,7)=?`, then `total if total else 0`.  SQLite's
`substr(date,1,7)` is the first 7 characters of the stored text (the whole
text when shorter), compared with the given month string byte for byte. -/
def monthly_expense (s : Store) (month : String) : ℚ :=
  pyTruthyOrZero
    (sqlSum ((s.records.filter (fun r => r.date.take 7 == month)).map Record.amount))

/-! ### Date validation (`get_valid_date`)

`get_valid_date` loops: it reads a line, rejects it structurally when its
length is not 10 or the characters at indices 4 and 7 are not `-`, then runs
`datetime.strptime(raw, "%Y-%m-%d")` and, on success, returns
`valid_date.strftime("%Y-%m-%d")`.  We embed the acceptance test and the
returned string for a single candidate line; the re-prompt loop is the
caller's concern. -/

/-- The code points at which each run of ten Unicode decimal digits
(category Nd) starts, as in this CPython's Unicode tables: `\d` in a `str`
regex (compiled without `re.ASCII`, as `_strptime` does) matches exactly the
characters `base + v` for a `base` in this list and a digit value
`v < 10`, and `int()` converts such a character to `v`. -/
def ndBases : List Nat :=
  [48, 1632, 1776, 1984, 2406, 2534, 2662, 2790, 2918, 3046, 3174, 3302, 3430,
   3558, 3664, 3792, 3872, 4160, 4240, 6112, 6160, 6470, 6608, 6784, 6800, 6992,
   7088, 7232, 7248, 42528, 43216, 43264, 43472, 43504, 43600, 44016, 65296,
   66720, 68912, 69734, 69872, 69942, 70096, 70384, 70736, 70864, 71248, 71360,
   71472, 71904, 72016, 72784, 73040, 73120, 92768, 92864, 93008, 120782,
   120792, 120802, 120812, 120822, 123200, 123632, 125264, 130032]

/-- The digit run a character belongs to, if any. -/
def pyDigitFind (c : Char) : Option Nat :=
  ndBases.find? (fun b => b ≤ c.toNat && c.toNat < b + 10)

/-- Whether `\d` (Unicode mode, as `_strptime` compiles it) matches the
character: any Unicode decimal digit, not only ASCII. -/
def isPyDigit (c : Char) : Bool := (pyDigitFind c).isSome

/-- The ASCII digits `[0-9]`: what the literal digit classes of the `%m` and
`%d` regexes (`1[0-2]`, `0[1-9]`, `[1-9]`, `3[01]`, `[12]`) can match, and
what `strftime` prints. -/
def isAsciiDigit (c : Char) : Bool := 48 ≤ c.toNat && c.toNat ≤ 57

/-- Numeric value of a decimal digit character, as `int()` converts it:
its offset inside its run of ten. -/
def digitVal (c : Char) : Nat := c.toNat - (pyDigitFind c).getD 48

/-- The `%d` regex `3[01]|[12]\d|0[1-9]|[1-9]` matching exactly two
characters (the one-character alternative leaves the tenth input character
unconverted, so `strptime` raises on it): `30`/`31` with ASCII digits, `1x`
or `2x` with any Unicode decimal digit `x`, or ASCII `01`-`09`. -/
def dayMatch (d1 d2 : Char) : Bool :=
  (d1 == '3' && (d2 == '0' || d2 == '1')) ||
  ((d1 == '1' || d1 == '2') && isPyDigit d2) ||
  (d1 == '0' && isAsciiDigit d2 && 1 ≤ digitVal d2)

/-- Gregorian leap-year rule, as `datetime` uses to validate 29 February. -/
def isLeapYear (y : Nat) : Bool := (y % 4 == 0 && y % 100 != 0) || y % 400 == 0

/-- Days in a month, as `datetime` validates the day of month. -/
def daysInMonth (y m : Nat) : Nat :=
  if m == 2 then (if isLeapYear y then 29 else 28)
  else if m == 4 || m == 6 || m == 9 || m == 11 then 30
  else 31

/-- Embeds `datetime.strptime(raw, "%Y-%m-%d")` as invoked by `get_valid_date`,
i.e. on strings that already passed the structural pre-check (length 10,
`-` at indices 4 and 7; on any other shape this embedding returns `none`,
which the composition below never consults).  On such strings the
`_strptime` regex (`%Y` is `\d\d\d\d`, `%m` is `1[0-2]|0[1-9]|[1-9]`, `%d`
is `3[01]|[12]\d|0[1-9]|[1-9]`, compiled without `re.ASCII`) succeeds
exactly when the four year positions hold Unicode decimal digits, the two
month positions hold ASCII digits reading 01-12, and the two day positions
match `dayMatch` (a one-character alternative of `%m`/`%d` would leave the
following literal unmatched or leave unconverted data, so only two-character
forms survive); building the `datetime` object then additionally enforces
`MINYEAR = 1 ≤ year` and `day ≤ days in that month`.  Returns the parsed
(year, month, day), with multi-script digit strings converted by `int()`
digit by digit. -/
def parseYmd (l : List Char) : Option (Nat × Nat × Nat) :=
  match l with
  | [y1, y2, y3, y4, h1, m1, m2, h2, d1, d2] =>
    if isPyDigit y1 && isPyDigit y2 && isPyDigit y3 && isPyDigit y4
        && h1 == '-' && h2 == '-'
        && isAsciiDigit m1 && isAsciiDigit m2
        && 1 ≤ 10 * digitVal m1 + digitVal m2
        && 10 * digitVal m1 + digitVal m2 ≤ 12
        && dayMatch d1 d2 then
      if 1 ≤ 1000 * digitVal y1 + 100 * digitVal y2 + 10 * digitVal y3 + digitVal y4
          && 1 ≤ 10 * digitVal m1 + digitVal m2
          && 10 * digitVal m1 + digitVal m2 ≤ 12
          && 1 ≤ 10 * digitVal d1 + digitVal d2
          && 10 * digitVal d1 + digitVal d2 ≤
              daysInMonth
                (1000 * digitVal y1 + 100 * digitVal y2 + 10 * digitVal y3 + digitVal y4)
                (10 * digitVal m1 + digitVal m2) then
        some (1000 * digitVal y1 + 100 * digitVal y2 + 10 * digitVal y3 + digitVal y4,
              10 * digitVal m1 + digitVal m2,
              10 * digitVal d1 + digitVal d2)
      else none
    else none
  | _ => none

/-- Whether `get_valid_date` accepts a candidate line: the structural check
`len(raw) != 10 or raw[4] != '-' or raw[7] != '-'` followed by a successful
strict parse. -/
def get_valid_date_accepts (raw : String) : Bool :=
  if raw.length != 10 || raw.data.getD 4 ' ' != '-' || raw.data.getD 7 ' ' != '-' then
    false
  else (parseYmd raw.data).isSome

/-- The ASCII digit character for a value 0-9. -/
def natDigitChar (n : Nat) : Char := Char.ofNat (48 + n)

/-- Renders `%m` / `%d` in `strftime("%Y-%m-%d")`: the value zero-padded to two
digits (values here are at most 31). -/
def pad2 (n : Nat) : List Char :=
  if n < 10 then ['0', natDigitChar n]
  else [natDigitChar (n / 10), natDigitChar (n % 10)]

/-- Renders `%Y` as CPython's `strftime` on glibc does: the year in decimal with
no zero padding (glibc formats `%Y` with a minimum field width of 1), for
years up to 9999 (the only ones `strptime`'s four-digit `%Y` produces). -/
def yearChars (y : Nat) : List Char :=
  if y < 10 then [natDigitChar y]
  else if y < 100 then [natDigitChar (y / 10), natDigitChar (y % 10)]
  else if y < 1000 then
    [natDigitChar (y / 100), natDigitChar (y / 10 % 10), natDigitChar (y % 10)]
  else
    [natDigitChar (y / 1000), natDigitChar (y / 100 % 10), natDigitChar (y / 10 % 10),
      natDigitChar (y % 10)]

/-- Embeds `valid_date.strftime("%Y-%m-%d")` on the parsed (year, month, day). -/
def strftimeYmd (y m d : Nat) : String :=
  ⟨yearChars y ++ '-' :: (pad2 m ++ '-' :: pad2 d)⟩

/-- What `get_valid_date` returns for a candidate line: `none` when the line
is rejected (the loop re-prompts), otherwise the re-formatted date string. -/
def get_valid_date_result (raw : String) : Option String :=
  if raw.length != 10 || raw.data.getD 4 ' ' != '-' || raw.data.getD 7 ' ' != '-' then
    none
  else
    match parseYmd raw.data with
    | some (y, m, d) => some (strftimeYmd y m d)
    | none => none

/-- The menu's add flow (choice "1") on one candidate date line: a candidate
`get_valid_date` rejects reaches no store operation (the store is returned
unchanged with failure flag `false`, and the loop re-prompts); for an
accepted candidate the menu passes `get_valid_date`'s return value — the
`strftime`-formatted string, not the raw input — to `add_expense`. -/
def add_via_menu (s : Store) (raw category description : String) (amount : ℚ) :
    Store × Bool :=
  match get_valid_date_result raw with
  | some date => (add_expense s date category description amount, true)
  | none => (s, false)

/-! ### Sequences of adds, category totals, and the chart -/

/-- The user-supplied fields of one add request. -/
structure AddInput where
  date : String
  category : String
  description : String
  amount : ℚ
  deriving Repr, DecidableEq

/-- Run a sequence of `add_expense` calls against a store. -/
def applyAdds (s : Store) (l : List AddInput) : Store :=
  l.foldl (fun st q => add_expense st q.date q.category q.description q.amount) s

/-- The rows a sequence of adds creates when AUTOINCREMENT stands at `n`. -/
def buildRecords (n : Nat) : List AddInput → List Record
  | [] => []
  | q :: t => ⟨n, q.date, q.category, q.description, q.amount⟩ :: buildRecords (n + 1) t

/-- The user-visible fields of a stored row. -/
def Record.fields (r : Record) : AddInput :=
  ⟨r.date, r.category, r.description, r.amount⟩

/-- Sum of `amount` over the rows of one category (exact string equality,
SQLite's BINARY collation). -/
def sumForCategory (s : Store) (c : String) : ℚ :=
  ((s.records.filter (fun r => r.category == c)).map Record.amount).sum

/-- Embeds `SELECT category, SUM(amount) FROM expenses GROUP BY category`: one row
per distinct category value paired with that category's sum.  SQLite fixes
no output order without ORDER BY; this embedding lists the distinct
categories in order of occurrence. -/
def categoryTotals (s : Store) : List (String × ℚ) :=
  (s.records.map Record.category).dedup.map (fun c => (c, sumForCategory s c))

/-- Bar colour in `plot_category_expenses`:
`'red' if amt > 30000 else 'skyblue'`. -/
def barColor (amt : ℚ) : String := if amt > 30000 then "red" else "skyblue"

/-- What `plot_category_expenses` does: print a message, or draw a chart. -/
inductive PlotOutcome where
  | message (text : String)
  | chart (bars : List (String × ℚ × String)) (yLo yHi refLine : ℚ)
  deriving Repr, DecidableEq

/-- Embeds `plot_category_expenses`: with no grouped rows it only prints
`"No expenses to display."` and returns; otherwise it draws one bar per
category (height = total, colour by `barColor`), sets `ylim(1000, 90000)`
and draws the reference line at 30000. -/
def plot_category_expenses (s : Store) : PlotOutcome :=
  match categoryTotals s with
  | [] => .message "No expenses to display."
  | rows => .chart (rows.map (fun p => (p.1, p.2, barColor p.2))) 1000 90000 30000

/-- A store whose rows carry pairwise distinct ids (the PRIMARY KEY
invariant every reachable database state satisfies). -/
def UniqueIds (s : Store) : Prop := (s.records.map Record.id).Nodup

/-! ### Helper lemmas -/

lemma pyTruthyOrZero_sqlSum (l : List ℚ) : pyTruthyOrZero (sqlSum l) = l.sum := by
  cases l with
  | nil => rfl
  | cons a t =>
    simp only [sqlSum, pyTruthyOrZero]
    split <;> simp_all

lemma isAsciiDigit_bounds {c : Char} (h : isAsciiDigit c = true) :
    48 ≤ c.toNat ∧ c.toNat ≤ 57 := by
  simpa [isAsciiDigit, Bool.and_eq_true, decide_eq_true_eq] using h

lemma pyDigitFind_spec {c : Char} {b : Nat} (h : pyDigitFind c = some b) :
    b ∈ ndBases ∧ b ≤ c.toNat ∧ c.toNat < b + 10 := by
  have hmem := List.mem_of_find?_eq_some h
  have hp := List.find?_some h
  simp only [Bool.and_eq_true, decide_eq_true_eq] at hp
  exact ⟨hmem, hp.1, hp.2⟩

lemma isPyDigit_exists {c : Char} (h : isPyDigit c = true) :
    ∃ b, pyDigitFind c = some b := by
  simpa [isPyDigit, Option.isSome_iff_exists] using h

lemma digitVal_lt_ten {c : Char} (h : isPyDigit c = true) : digitVal c < 10 := by
  obtain ⟨b, hb⟩ := isPyDigit_exists h
  obtain ⟨-, h1, h2⟩ := pyDigitFind_spec hb
  unfold digitVal
  rw [hb]
  simp only [Option.getD_some]
  omega

lemma ascii_pyDigitFind {c : Char} (h : isAsciiDigit c = true) :
    pyDigitFind c = some 48 := by
  obtain ⟨h1, h2⟩ := isAsciiDigit_bounds h
  have hp : (48 ≤ c.toNat && c.toNat < 48 + 10) = true := by
    simp only [Bool.and_eq_true, decide_eq_true_eq]
    omega
  unfold pyDigitFind ndBases
  exact List.find?_cons_of_pos _ hp

lemma isAsciiDigit_isPyDigit {c : Char} (h : isAsciiDigit c = true) :
    isPyDigit c = true := by
  unfold isPyDigit
  rw [ascii_pyDigitFind h]
  rfl

lemma digitVal_ascii {c : Char} (h : isAsciiDigit c = true) :
    digitVal c = c.toNat - 48 := by
  unfold digitVal
  rw [ascii_pyDigitFind h]
  rfl

lemma pyDigit_ascii_of_lt128 {c : Char} (h : isPyDigit c = true)
    (hc : c.toNat < 128) : isAsciiDigit c = true := by
  obtain ⟨b, hb⟩ := isPyDigit_exists h
  obtain ⟨hmem, h1, h2⟩ := pyDigitFind_spec hb
  have hall : ∀ x ∈ ndBases, (x == 48 || decide (128 ≤ x)) = true := by decide
  have hx := hall b hmem
  simp only [Bool.or_eq_true, beq_iff_eq, decide_eq_true_eq] at hx
  have hb48 : b = 48 := by omega
  subst hb48
  simp only [isAsciiDigit, Bool.and_eq_true, decide_eq_true_eq]
  omega

lemma dayMatch_digits {d1 d2 : Char} (h : dayMatch d1 d2 = true) :
    isAsciiDigit d1 = true ∧ isPyDigit d2 = true := by
  unfold dayMatch at h
  simp only [Bool.or_eq_true, Bool.and_eq_true, beq_iff_eq, decide_eq_true_eq] at h
  rcases h with (⟨h1, h2⟩ | ⟨h1, h2⟩) | ⟨⟨h1, h2⟩, h3⟩
  · subst h1
    rcases h2 with h2 | h2 <;> subst h2 <;> exact ⟨by decide, by decide⟩
  · refine ⟨?_, h2⟩
    rcases h1 with h1 | h1 <;> subst h1 <;> decide
  · subst h1
    exact ⟨by decide, isAsciiDigit_isPyDigit h2⟩

lemma natDigitChar_digitVal {c : Char} (h : isAsciiDigit c = true) :
    natDigitChar (digitVal c) = c := by
  obtain ⟨h1, h2⟩ := isAsciiDigit_bounds h
  rw [digitVal_ascii h]
  unfold natDigitChar
  have hn : 48 + (c.toNat - 48) = c.toNat := by omega
  rw [hn, Char.ofNat_toNat]

lemma pad2_digits {a b : Char} (ha : isAsciiDigit a = true) (hb : isAsciiDigit b = true) :
    pad2 (10 * digitVal a + digitVal b) = [a, b] := by
  have ha9 := digitVal_lt_ten (isAsciiDigit_isPyDigit ha)
  have hb9 := digitVal_lt_ten (isAsciiDigit_isPyDigit hb)
  by_cases h : 10 * digitVal a + digitVal b < 10
  · have ha0 : digitVal a = 0 := by omega
    have hsum : 10 * digitVal a + digitVal b = digitVal b := by omega
    have haz : a = '0' := by
      have hx := natDigitChar_digitVal ha
      rw [ha0] at hx
      have : natDigitChar 0 = '0' := by decide
      rw [this] at hx
      exact hx.symm
    rw [pad2, if_pos h, hsum, natDigitChar_digitVal hb, haz]
  · have hq : (10 * digitVal a + digitVal b) / 10 = digitVal a := by omega
    have hr : (10 * digitVal a + digitVal b) % 10 = digitVal b := by omega
    rw [pad2, if_neg h, hq, hr, natDigitChar_digitVal ha, natDigitChar_digitVal hb]

lemma yearChars_digits {a b c d : Char} (ha : isAsciiDigit a = true)
    (hb : isAsciiDigit b = true) (hc : isAsciiDigit c = true) (hd : isAsciiDigit d = true)
    (h1000 : 1000 ≤ 1000 * digitVal a + 100 * digitVal b + 10 * digitVal c + digitVal d) :
    yearChars (1000 * digitVal a + 100 * digitVal b + 10 * digitVal c + digitVal d) =
      [a, b, c, d] := by
  have ha9 := digitVal_lt_ten (isAsciiDigit_isPyDigit ha)
  have hb9 := digitVal_lt_ten (isAsciiDigit_isPyDigit hb)
  have hc9 := digitVal_lt_ten (isAsciiDigit_isPyDigit hc)
  have hd9 := digitVal_lt_ten (isAsciiDigit_isPyDigit hd)
  have hn1 : ¬ 1000 * digitVal a + 100 * digitVal b + 10 * digitVal c + digitVal d < 10 := by
    omega
  have hn2 : ¬ 1000 * digitVal a + 100 * digitVal b + 10 * digitVal c + digitVal d < 100 := by
    omega
  have hn3 : ¬ 1000 * digitVal a + 100 * digitVal b + 10 * digitVal c + digitVal d < 1000 := by
    omega
  have e1 : (1000 * digitVal a + 100 * digitVal b + 10 * digitVal c + digitVal d) / 1000 =
      digitVal a := by omega
  have e2 : (1000 * digitVal a + 100 * digitVal b + 10 * digitVal c + digitVal d) / 100 % 10 =
      digitVal b := by omega
  have e3 : (1000 * digitVal a + 100 * digitVal b + 10 * digitVal c + digitVal d) / 10 % 10 =
      digitVal c := by omega
  have e4 : (1000 * digitVal a + 100 * digitVal b + 10 * digitVal c + digitVal d) % 10 =
      digitVal d := by omega
  rw [yearChars, if_neg hn1, if_neg hn2, if_neg hn3, e1, e2, e3, e4,
    natDigitChar_digitVal ha, natDigitChar_digitVal hb, natDigitChar_digitVal hc,
    natDigitChar_digitVal hd]

lemma parseYmd_some_shape {l : List Char} {y m d : Nat}
    (h : parseYmd l = some (y, m, d)) :
    ∃ y1 y2 y3 y4 m1 m2 d1 d2,
      l = [y1, y2, y3, y4, '-', m1, m2, '-', d1, d2] ∧
      isPyDigit y1 = true ∧ isPyDigit y2 = true ∧ isPyDigit y3 = true ∧
      isPyDigit y4 = true ∧ isAsciiDigit m1 = true ∧ isAsciiDigit m2 = true ∧
      dayMatch d1 d2 = true ∧
      y = 1000 * digitVal y1 + 100 * digitVal y2 + 10 * digitVal y3 + digitVal y4 ∧
      m = 10 * digitVal m1 + digitVal m2 ∧
      d = 10 * digitVal d1 + digitVal d2 ∧
      1 ≤ y ∧ 1 ≤ m ∧ m ≤ 12 ∧ 1 ≤ d ∧ d ≤ daysInMonth y m := by
  rcases l with _ | ⟨c0, _ | ⟨c1, _ | ⟨c2, _ | ⟨c3, _ | ⟨c4, _ | ⟨c5, _ | ⟨c6, _ |
    ⟨c7, _ | ⟨c8, _ | ⟨c9, _ | ⟨c10, rest⟩⟩⟩⟩⟩⟩⟩⟩⟩⟩⟩ <;>
    first
      | (exfalso; simp only [parseYmd] at h; exact Option.noConfusion h)
      | skip
  simp only [parseYmd] at h
  split_ifs at h with hcond hrange
  · obtain ⟨⟨⟨⟨⟨⟨⟨⟨⟨⟨hy1, hy2⟩, hy3⟩, hy4⟩, hd4⟩, hd7⟩, hm1⟩, hm2⟩, hmlo⟩, hmhi⟩, hday⟩ :=
      by simpa only [Bool.and_eq_true] using hcond
    obtain ⟨⟨⟨⟨hr1, hr2⟩, hr3⟩, hr4⟩, hr5⟩ :=
      by simpa only [Bool.and_eq_true] using hrange
    simp only [decide_eq_true_eq] at hr1 hr2 hr3 hr4 hr5
    obtain ⟨hy, hm, hd⟩ : y = _ ∧ m = _ ∧ d = _ := by
      have := h
      simp only [Option.some.injEq, Prod.mk.injEq] at this
      exact ⟨this.1.symm, this.2.1.symm, this.2.2.symm⟩
    have hc4 : c4 = '-' := by simpa [beq_iff_eq] using hd4
    have hc7 : c7 = '-' := by simpa [beq_iff_eq] using hd7
    subst hc4 hc7
    exact ⟨c0, c1, c2, c3, c5, c6, c8, c9, rfl, hy1, hy2, hy3, hy4, hm1, hm2, hday,
      hy, hm, hd, by omega, by omega, by omega, by omega, by rw [hy, hm, hd]; exact hr5⟩

lemma parseYmd_eq_some_of {y1 y2 y3 y4 m1 m2 d1 d2 : Char}
    (hy1 : isPyDigit y1 = true) (hy2 : isPyDigit y2 = true)
    (hy3 : isPyDigit y3 = true) (hy4 : isPyDigit y4 = true)
    (hm1 : isAsciiDigit m1 = true) (hm2 : isAsciiDigit m2 = true)
    (hday : dayMatch d1 d2 = true)
    (h1 : 1 ≤ 1000 * digitVal y1 + 100 * digitVal y2 + 10 * digitVal y3 + digitVal y4)
    (h2 : 1 ≤ 10 * digitVal m1 + digitVal m2)
    (h3 : 10 * digitVal m1 + digitVal m2 ≤ 12)
    (h4 : 1 ≤ 10 * digitVal d1 + digitVal d2)
    (h5 : 10 * digitVal d1 + digitVal d2 ≤
      daysInMonth (1000 * digitVal y1 + 100 * digitVal y2 + 10 * digitVal y3 + digitVal y4)
        (10 * digitVal m1 + digitVal m2)) :
    parseYmd [y1, y2, y3, y4, '-', m1, m2, '-', d1, d2] =
      some (1000 * digitVal y1 + 100 * digitVal y2 + 10 * digitVal y3 + digitVal y4,
            10 * digitVal m1 + digitVal m2,
            10 * digitVal d1 + digitVal d2) := by
  simp [parseYmd, hy1, hy2, hy3, hy4, hm1, hm2, hday, h1, h2, h3, h4, h5]

lemma strftimeYmd_roundtrip {y1 y2 y3 y4 m1 m2 d1 d2 : Char}
    (hy1 : isAsciiDigit y1 = true) (hy2 : isAsciiDigit y2 = true)
    (hy3 : isAsciiDigit y3 = true) (hy4 : isAsciiDigit y4 = true)
    (hm1 : isAsciiDigit m1 = true) (hm2 : isAsciiDigit m2 = true)
    (hd1 : isAsciiDigit d1 = true) (hd2 : isAsciiDigit d2 = true)
    (h1000 : 1000 ≤ 1000 * digitVal y1 + 100 * digitVal y2 + 10 * digitVal y3 + digitVal y4) :
    strftimeYmd (1000 * digitVal y1 + 100 * digitVal y2 + 10 * digitVal y3 + digitVal y4)
        (10 * digitVal m1 + digitVal m2) (10 * digitVal d1 + digitVal d2) =
      ⟨[y1, y2, y3, y4, '-', m1, m2, '-', d1, d2]⟩ := by
  unfold strftimeYmd
  rw [yearChars_digits hy1 hy2 hy3 hy4 h1000, pad2_digits hm1 hm2, pad2_digits hd1 hd2]
  rfl

lemma result_none_iff (raw : String) :
    get_valid_date_result raw = none ↔ get_valid_date_accepts raw = false := by
  unfold get_valid_date_result get_valid_date_accepts
  split_ifs with h
  · simp
  · cases hp : parseYmd raw.data with
    | none => simp [hp]
    | some t =>
      rcases t with ⟨y, m, d⟩
      simp [hp]

lemma applyAdds_records (l : List AddInput) :
    ∀ s : Store, (applyAdds s l).records = s.records ++ buildRecords s.nextId l := by
  induction l with
  | nil => intro s; simp [applyAdds, buildRecords]
  | cons q t ih =>
    intro s
    show (applyAdds (add_expense s q.date q.category q.description q.amount) t).records = _
    rw [ih]
    simp [add_expense, buildRecords]

lemma buildRecords_map_id (l : List AddInput) :
    ∀ n : Nat, (buildRecords n l).map Record.id = List.range' n l.length := by
  induction l with
  | nil => intro n; rfl
  | cons q t ih =>
    intro n
    rw [buildRecords, List.map_cons, ih (n + 1)]
    rfl

lemma buildRecords_map_fields (l : List AddInput) :
    ∀ n : Nat, (buildRecords n l).map Record.fields = l := by
  induction l with
  | nil => intro n; rfl
  | cons q t ih =>
    intro n
    rw [buildRecords, List.map_cons, ih (n + 1)]
    rfl

lemma filter_ne_of_notMem {l : List Record} {i : Nat}
    (h : ∀ r ∈ l, r.id ≠ i) : l.filter (fun r => r.id != i) = l := by
  apply List.filter_eq_self.mpr
  intro r hr
  simpa using h r hr

lemma filter_ne_eq_erase {l : List Record} {i : Nat}
    (hu : (l.map Record.id).Nodup) {r : Record} (hr : r ∈ l) (hid : r.id = i) :
    l.filter (fun x => x.id != i) = l.erase r := by
  induction l with
  | nil => cases hr
  | cons a t ih =>
    rw [List.map_cons, List.nodup_cons] at hu
    obtain ⟨ha, ht⟩ := hu
    rcases List.mem_cons.mp hr with h | h
    · subst h
      have hdrop : (r.id != i) = false := by simp [hid]
      have htail : ∀ x ∈ t, x.id ≠ i := by
        intro x hx hxi
        apply ha
        have hmem : x.id ∈ List.map Record.id t := List.mem_map_of_mem Record.id hx
        rwa [hxi, ← hid] at hmem
      rw [List.filter_cons, hdrop, filter_ne_of_notMem htail]
      simp [List.erase_cons]
    · have hai : a.id ≠ i := by
        intro hai
        apply ha
        rw [hai, ← hid]
        exact List.mem_map_of_mem Record.id h
      have hne : a ≠ r := by
        intro he
        exact hai (by rw [he, hid])
      have hkeep : (a.id != i) = true := by simp [hai]
      rw [List.filter_cons, if_pos hkeep, ih ht h, List.erase_cons,
        if_neg (by simpa using hne)]

/-! ### Claim theorems -/

/-- C1: `totalAll()` (embedded as `total_expense`) returns the arithmetic sum
of the `amount` field over exactly the records currently present, and
returns 0 when the store contains no records. -/
theorem totalAll_sums_amounts :
    (∀ s : Store, total_expense s = (s.records.map Record.amount).sum) ∧
    (∀ s : Store, s.records = [] → total_expense s = 0) := by
  constructor
  · intro s
    exact pyTruthyOrZero_sqlSum _
  · intro s h
    unfold total_expense
    rw [pyTruthyOrZero_sqlSum, h]
    rfl

/-- Witness for C1: the empty store has total 0, and a one-record store has
that record's amount as its total. -/
theorem totalAll_sums_amounts_witness :
    total_expense emptyStore = 0 ∧
    total_expense (add_expense emptyStore "2025-08-01" "Food" "x" 100) = 100 :=
  ⟨totalAll_sums_amounts.2 emptyStore rfl,
   by rw [totalAll_sums_amounts.1]; simp [add_expense, emptyStore]⟩

/-- C2: `totalForMonth(m)` (embedded as `monthly_expense`) sums `amount`
over exactly the records whose date's first 7 characters equal `m` (plain
prefix comparison), returns 0 when no record matches, and on the spec's
example (100 on 2025-08-01, 50 on 2025-09-01) returns 100 for "2025-08". -/
theorem totalForMonth_prefix_sum :
    (∀ (s : Store) (m : String),
      monthly_expense s m =
        ((s.records.filter (fun r => r.date.take 7 == m)).map Record.amount).sum) ∧
    (∀ (s : Store) (m : String), (∀ r ∈ s.records, r.date.take 7 ≠ m) →
      monthly_expense s m = 0) ∧
    monthly_expense
      (applyAdds emptyStore
        [⟨"2025-08-01", "Food", "groceries", 100⟩, ⟨"2025-09-01", "Food", "snacks", 50⟩])
      "2025-08" = 100 := by
  have hgen : ∀ (s : Store) (m : String),
      monthly_expense s m =
        ((s.records.filter (fun r => r.date.take 7 == m)).map Record.amount).sum :=
    fun s m => pyTruthyOrZero_sqlSum _
  refine ⟨hgen, fun s m h => ?_, ?_⟩
  · rw [hgen]
    have hnil : s.records.filter (fun r => r.date.take 7 == m) = [] := by
      rw [List.filter_eq_nil_iff]
      intro r hr
      simpa using h r hr
    rw [hnil]
    rfl
  · rw [hgen]
    have e1 : (("2025-08-01" : String).take 7 == "2025-08") = true := by decide
    have e2 : (("2025-09-01" : String).take 7 == "2025-08") = false := by decide
    simp [applyAdds, add_expense, emptyStore, e1, e2]

/-- Witness for C2: a store with no August 2025 record has monthly total 0. -/
theorem totalForMonth_prefix_sum_witness :
    monthly_expense (add_expense emptyStore "2025-09-01" "Food" "x" 50) "2025-08" = 0 :=
  totalForMonth_prefix_sum.2.1 (add_expense emptyStore "2025-09-01" "Food" "x" 50)
    "2025-08" (by decide)

/-- C4: the menu's add flow rejects a date the validator refuses, leaving the
store unchanged and performing no insert, and for an accepted date appends
exactly one new record with the given category, description and amount and
the validated date string `get_valid_date` returned. -/
theorem add_rejects_invalid_date :
    ∀ (s : Store) (raw category description : String) (amount : ℚ),
      (get_valid_date_accepts raw = false →
        add_via_menu s raw category description amount = (s, false)) ∧
      (∀ date : String, get_valid_date_result raw = some date →
        add_via_menu s raw category description amount =
          ({ records := s.records ++ [⟨s.nextId, date, category, description, amount⟩],
             nextId := s.nextId + 1 }, true)) := by
  intro s raw c de a
  constructor
  · intro h
    unfold add_via_menu
    rw [(result_none_iff raw).mpr h]
  · intro dte h
    unfold add_via_menu
    rw [h]
    rfl

/-- Witness for C4: "2025/08/03" is rejected with no mutation; accepted
"2025-08-03" is appended as the single new record; accepted "0999-01-01" is
stored under the validator's normalized form "999-01-01". -/
theorem add_rejects_invalid_date_witness :
    add_via_menu emptyStore "2025/08/03" "Food" "x" 5 = (emptyStore, false) ∧
    add_via_menu emptyStore "2025-08-03" "Food" "x" 5 =
      (⟨[⟨1, "2025-08-03", "Food", "x", 5⟩], 2⟩, true) ∧
    add_via_menu emptyStore "0999-01-01" "Food" "x" 5 =
      (⟨[⟨1, "999-01-01", "Food", "x", 5⟩], 2⟩, true) :=
  ⟨(add_rejects_invalid_date emptyStore "2025/08/03" "Food" "x" 5).1 (by decide),
   (add_rejects_invalid_date emptyStore "2025-08-03" "Food" "x" 5).2
     "2025-08-03" (by decide),
   (add_rejects_invalid_date emptyStore "0999-01-01" "Food" "x" 5).2
     "999-01-01" (by decide)⟩

/-- C3: the date validator accepts a candidate string exactly when it is ten
characters with `-` at indices 4 and 7 and the remaining positions strictly
parse as a semantically valid YYYY-MM-DD calendar date under `strptime`
(year digits are any Unicode decimal digits reading a year ≥ 1, the month is
two ASCII digits reading 01-12, the day matches the `%d` regex and stays
within the month's length); in particular "2025-08-03" is accepted — as are
the Unicode-digit forms "٢٠٢٥-08-03" and "2025-08-1٣" the program accepts —
while "2025/08/03", "2025-13-01" and every string of length ≠ 10 are
rejected. -/
theorem date_validator_accepts_iff :
    (∀ raw : String, get_valid_date_accepts raw = true ↔
      ∃ y1 y2 y3 y4 m1 m2 d1 d2 : Char,
        raw.data = [y1, y2, y3, y4, '-', m1, m2, '-', d1, d2] ∧
        isPyDigit y1 = true ∧ isPyDigit y2 = true ∧ isPyDigit y3 = true ∧
        isPyDigit y4 = true ∧ isAsciiDigit m1 = true ∧ isAsciiDigit m2 = true ∧
        dayMatch d1 d2 = true ∧
        1 ≤ 1000 * digitVal y1 + 100 * digitVal y2 + 10 * digitVal y3 + digitVal y4 ∧
        1 ≤ 10 * digitVal m1 + digitVal m2 ∧ 10 * digitVal m1 + digitVal m2 ≤ 12 ∧
        1 ≤ 10 * digitVal d1 + digitVal d2 ∧
        10 * digitVal d1 + digitVal d2 ≤
          daysInMonth
            (1000 * digitVal y1 + 100 * digitVal y2 + 10 * digitVal y3 + digitVal y4)
            (10 * digitVal m1 + digitVal m2)) ∧
    get_valid_date_accepts "2025-08-03" = true ∧
    get_valid_date_accepts "٢٠٢٥-08-03" = true ∧
    get_valid_date_accepts "2025-08-1٣" = true ∧
    get_valid_date_accepts "2025/08/03" = false ∧
    get_valid_date_accepts "2025-13-01" = false ∧
    (∀ raw : String, raw.length ≠ 10 → get_valid_date_accepts raw = false) := by
  refine ⟨?_, by decide, by decide, by decide, by decide, by decide, ?_⟩
  · intro raw
    constructor
    · intro h
      unfold get_valid_date_accepts at h
      split_ifs at h with hstruct
      rw [Option.isSome_iff_exists] at h
      obtain ⟨⟨y, m, d⟩, hp⟩ := h
      obtain ⟨y1, y2, y3, y4, m1, m2, d1, d2, hdata, hy1, hy2, hy3, hy4, hm1, hm2,
        hday, hyeq, hmeq, hdeq, hr1, hr2, hr3, hr4, hr5⟩ := parseYmd_some_shape hp
      refine ⟨y1, y2, y3, y4, m1, m2, d1, d2, hdata, hy1, hy2, hy3, hy4, hm1, hm2,
        hday, ?_, ?_, ?_, ?_, ?_⟩
      · rw [← hyeq]; exact hr1
      · rw [← hmeq]; exact hr2
      · rw [← hmeq]; exact hr3
      · rw [← hdeq]; exact hr4
      · rw [← hyeq, ← hmeq, ← hdeq]; exact hr5
    · rintro ⟨y1, y2, y3, y4, m1, m2, d1, d2, hdata, hy1, hy2, hy3, hy4, hm1, hm2,
        hday, h1, h2, h3, h4, h5⟩
      have hp := parseYmd_eq_some_of hy1 hy2 hy3 hy4 hm1 hm2 hday h1 h2 h3 h4 h5
      have hlen : raw.length = 10 := by
        show raw.data.length = 10
        rw [hdata]
        rfl
      have hg4 : raw.data.getD 4 ' ' = '-' := by rw [hdata]; rfl
      have hg7 : raw.data.getD 7 ' ' = '-' := by rw [hdata]; rfl
      unfold get_valid_date_accepts
      rw [if_neg (by rw [hlen, hg4, hg7]; decide), hdata, hp]
      rfl
  · intro raw h
    have hc : (raw.length != 10) = true := by simpa [bne_iff_ne] using h
    simp [get_valid_date_accepts, hc]

/-- Witness for C3: a five-character string is rejected for its length. -/
theorem date_validator_accepts_iff_witness :
    get_valid_date_accepts "2025" = false :=
  date_validator_accepts_iff.2.2.2.2.2.2 "2025" (by decide)

/-- C5: after any sequence of valid adds starting from the fresh store,
`view_expenses` lists the stored records in insertion order carrying the
request fields, with ids strictly increasing along the list (hence pairwise
unique); on the empty store it returns the empty sequence. -/
theorem list_returns_insertion_order :
    (∀ l : List AddInput, (∀ q ∈ l, get_valid_date_accepts q.date = true) →
      (view_expenses (applyAdds emptyStore l)).map Record.fields = l ∧
      List.Pairwise (fun a b : Record => a.id < b.id)
        (view_expenses (applyAdds emptyStore l)) ∧
      ((view_expenses (applyAdds emptyStore l)).map Record.id).Nodup) ∧
    view_expenses emptyStore = [] := by
  constructor
  · intro l _
    have hrec : view_expenses (applyAdds emptyStore l) = buildRecords 1 l := by
      show (applyAdds emptyStore l).records = _
      rw [applyAdds_records]
      rfl
    have hid : (view_expenses (applyAdds emptyStore l)).map Record.id =
        List.range' 1 l.length := by
      rw [hrec, buildRecords_map_id]
    refine ⟨by rw [hrec, buildRecords_map_fields], ?_, ?_⟩
    · have hp : List.Pairwise (· < ·)
          ((view_expenses (applyAdds emptyStore l)).map Record.id) := by
        rw [hid]
        exact List.pairwise_lt_range' 1 l.length
      exact List.pairwise_map.mp hp
    · rw [hid]
      exact (List.pairwise_lt_range' 1 l.length).imp Nat.ne_of_lt
  · rfl

/-- Witness for C5: two valid adds are listed in order with ids 1 and 2. -/
theorem list_returns_insertion_order_witness :
    (view_expenses (applyAdds emptyStore
        [⟨"2025-08-01", "Food", "a", 100⟩, ⟨"2025-09-01", "Travel", "b", 50⟩])).map
        Record.fields =
      [⟨"2025-08-01", "Food", "a", 100⟩, ⟨"2025-09-01", "Travel", "b", 50⟩] :=
  (list_returns_insertion_order.1
    [⟨"2025-08-01", "Food", "a", 100⟩, ⟨"2025-09-01", "Travel", "b", 50⟩]
    (by decide)).1

/-- C6: on a store with unique ids, `delete_expense i` removes exactly the
record whose id is `i` (afterwards no listed record has that id), is a no-op
when no record carries the id, and deleting the same id twice equals
deleting it once. -/
theorem delete_removes_exactly_matching :
    ∀ (s : Store) (i : Nat), UniqueIds s →
      (∀ r ∈ (delete_expense s i).records, r.id ≠ i) ∧
      (∀ r ∈ s.records, r.id = i → (delete_expense s i).records = s.records.erase r) ∧
      ((∀ r ∈ s.records, r.id ≠ i) → delete_expense s i = s) ∧
      delete_expense (delete_expense s i) i = delete_expense s i := by
  intro s i hu
  have h1 : ∀ r ∈ (delete_expense s i).records, r.id ≠ i := by
    intro r hr
    have hmem := List.of_mem_filter hr
    simpa using hmem
  have hnoop : ∀ s' : Store, (∀ r ∈ s'.records, r.id ≠ i) → delete_expense s' i = s' := by
    intro s' h
    unfold delete_expense
    rw [filter_ne_of_notMem h]
  exact ⟨h1, fun r hr hid => filter_ne_eq_erase hu hr hid, hnoop s,
    hnoop (delete_expense s i) h1⟩

/-- Witness for C6: repeated deletion of id 1 is idempotent, and deleting the
absent id 2 leaves the one-record store unchanged. -/
theorem delete_removes_exactly_matching_witness :
    delete_expense (delete_expense ⟨[⟨1, "2025-08-01", "Food", "a", 10⟩], 2⟩ 1) 1 =
      delete_expense ⟨[⟨1, "2025-08-01", "Food", "a", 10⟩], 2⟩ 1 ∧
    delete_expense (⟨[⟨1, "2025-08-01", "Food", "a", 10⟩], 2⟩ : Store) 2 =
      ⟨[⟨1, "2025-08-01", "Food", "a", 10⟩], 2⟩ :=
  ⟨(delete_removes_exactly_matching ⟨[⟨1, "2025-08-01", "Food", "a", 10⟩], 2⟩ 1
      (by unfold UniqueIds; decide)).2.2.2,
   (delete_removes_exactly_matching ⟨[⟨1, "2025-08-01", "Food", "a", 10⟩], 2⟩ 2
      (by unfold UniqueIds; decide)).2.2.1 (by decide)⟩

/-- C7: `update_expense i ...` keeps the record count and the id sequence,
leaves every record with a different id unchanged, gives the matching record
the new fields while its id stays `i`, and is a no-op when no record has
id `i`. -/
theorem update_replaces_fields_only :
    ∀ (s : Store) (i : Nat) (date category description : String) (amount : ℚ),
      (update_expense s i date category description amount).records.length =
        s.records.length ∧
      (update_expense s i date category description amount).records.map Record.id =
        s.records.map Record.id ∧
      (∀ r ∈ s.records, r.id ≠ i →
        r ∈ (update_expense s i date category description amount).records) ∧
      (∀ r ∈ s.records, r.id = i →
        (⟨i, date, category, description, amount⟩ : Record) ∈
          (update_expense s i date category description amount).records) ∧
      ((∀ r ∈ s.records, r.id ≠ i) →
        update_expense s i date category description amount = s) := by
  intro s i dt c de a
  refine ⟨by simp [update_expense], ?_, ?_, ?_, ?_⟩
  · unfold update_expense
    simp only [List.map_map]
    apply List.map_congr_left
    intro r _
    by_cases h : r.id = i <;> simp [h]
  · intro r hr h
    apply List.mem_map.mpr
    exact ⟨r, hr, by simp [h]⟩
  · intro r hr h
    apply List.mem_map.mpr
    refine ⟨r, hr, ?_⟩
    rw [if_pos h, h]
  · intro h
    unfold update_expense
    have hmap : s.records.map
        (fun r => if r.id = i then (⟨r.id, dt, c, de, a⟩ : Record) else r) =
          s.records.map id := by
      apply List.map_congr_left
      intro r hr
      simp [h r hr]
    rw [hmap, List.map_id]

/-- Witness for C7: updating id 1 installs the new fields under id 1, and
updating the absent id 99 changes nothing. -/
theorem update_replaces_fields_only_witness :
    (⟨1, "2025-09-02", "Travel", "t", 7⟩ : Record) ∈
      (update_expense ⟨[⟨1, "2025-08-01", "Food", "x", 100⟩], 2⟩ 1
        "2025-09-02" "Travel" "t" 7).records ∧
    update_expense ⟨[⟨1, "2025-08-01", "Food", "x", 100⟩], 2⟩ 99 "d" "c" "e" 1 =
      ⟨[⟨1, "2025-08-01", "Food", "x", 100⟩], 2⟩ :=
  ⟨(update_replaces_fields_only ⟨[⟨1, "2025-08-01", "Food", "x", 100⟩], 2⟩ 1
      "2025-09-02" "Travel" "t" 7).2.2.2.1 ⟨1, "2025-08-01", "Food", "x", 100⟩
      (List.mem_singleton.mpr rfl) rfl,
   (update_replaces_fields_only ⟨[⟨1, "2025-08-01", "Food", "x", 100⟩], 2⟩ 99
      "d" "c" "e" 1).2.2.2.2 (by decide)⟩

/-- C8: `categoryTotals` maps each distinct category string (exact equality)
to the sum of `amount` over the records bearing it, is empty on an empty
store, and on the spec's example ("Food" 20, "Food" 30, "Travel" 10) yields
Food 50 and Travel 10. -/
theorem categoryTotals_groups_by_category :
    (∀ s : Store, s.records = [] → categoryTotals s = []) ∧
    (∀ (s : Store) (c : String) (q : ℚ),
      (c, q) ∈ categoryTotals s ↔
        (∃ r ∈ s.records, r.category = c) ∧ q = sumForCategory s c) ∧
    categoryTotals (applyAdds emptyStore
      [⟨"2025-08-01", "Food", "a", 20⟩, ⟨"2025-08-02", "Food", "b", 30⟩,
       ⟨"2025-08-03", "Travel", "c", 10⟩]) = [("Food", 50), ("Travel", 10)] := by
  refine ⟨?_, ?_, ?_⟩
  · intro s h
    unfold categoryTotals
    rw [h]
    rfl
  · intro s c q
    unfold categoryTotals
    rw [List.mem_map]
    constructor
    · rintro ⟨c', hc', he⟩
      rw [Prod.ext_iff] at he
      obtain ⟨hcc, hqq⟩ := he
      subst hcc
      obtain ⟨r, hr, hcat⟩ := List.mem_map.mp (List.mem_dedup.mp hc')
      exact ⟨⟨r, hr, hcat⟩, hqq.symm⟩
    · rintro ⟨⟨r, hr, hcat⟩, rfl⟩
      exact ⟨c, List.mem_dedup.mpr (List.mem_map.mpr ⟨r, hr, hcat⟩), rfl⟩
  · unfold categoryTotals sumForCategory
    have e1 : (("Food" : String) == "Food") = true := by decide
    have e2 : (("Travel" : String) == "Food") = false := by decide
    have e3 : (("Food" : String) == "Travel") = false := by decide
    have e4 : (("Travel" : String) == "Travel") = true := by decide
    simp [applyAdds, add_expense, emptyStore, List.dedup_cons_of_mem,
      List.dedup_cons_of_not_mem, e1, e2, e3, e4]
    norm_num

/-- Witness for C8: the empty store yields the empty mapping. -/
theorem categoryTotals_groups_by_category_witness :
    categoryTotals emptyStore = [] :=
  categoryTotals_groups_by_category.1 emptyStore rfl

/-- C9: a bar's colour is the over-limit "red" exactly when its category
total strictly exceeds 30000 (a total of exactly 30000 keeps the default
"skyblue"), and on an empty store `plot_category_expenses` draws nothing,
only printing a message. -/
theorem chart_color_threshold :
    (∀ amt : ℚ, barColor amt = "red" ↔ amt > 30000) ∧
    barColor 30000 = "skyblue" ∧
    (∀ s : Store, s.records = [] →
      plot_category_expenses s = PlotOutcome.message "No expenses to display.") ∧
    (∀ (s : Store) (bars : List (String × ℚ × String)) (yLo yHi refLine : ℚ),
      plot_category_expenses s = PlotOutcome.chart bars yLo yHi refLine →
        ∀ p ∈ bars, p.2.2 = barColor p.2.1) ∧
    plot_category_expenses (applyAdds emptyStore [⟨"2025-08-01", "Food", "a", 35000⟩]) =
      PlotOutcome.chart [("Food", 35000, "red")] 1000 90000 30000 ∧
    plot_category_expenses (applyAdds emptyStore [⟨"2025-08-01", "Food", "a", 5000⟩]) =
      PlotOutcome.chart [("Food", 5000, "skyblue")] 1000 90000 30000 := by
  have hbar : ∀ amt : ℚ, barColor amt = "red" ↔ amt > 30000 := by
    intro amt
    unfold barColor
    split_ifs with h
    · simp [h]
    · constructor
      · intro he
        exact absurd he (by decide)
      · intro hgt
        exact absurd hgt h
  have hone : ∀ (dt c de : String) (q : ℚ),
      plot_category_expenses (applyAdds emptyStore [⟨dt, c, de, q⟩]) =
        PlotOutcome.chart [(c, q + 0, barColor (q + 0))] 1000 90000 30000 := by
    intro dt c de q
    unfold plot_category_expenses categoryTotals sumForCategory
    simp [applyAdds, add_expense, emptyStore]
  refine ⟨hbar, by unfold barColor; norm_num, ?_, ?_, ?_, ?_⟩
  · intro s h
    unfold plot_category_expenses categoryTotals
    rw [h]
    rfl
  · intro s bars yLo yHi refLine hp p hpmem
    unfold plot_category_expenses at hp
    cases hct : categoryTotals s with
    | nil => rw [hct] at hp; exact PlotOutcome.noConfusion hp
    | cons hd tl =>
      rw [hct] at hp
      have hbars : bars = (hd :: tl).map (fun p => (p.1, p.2, barColor p.2)) := by
        cases hp
        rfl
      rw [hbars] at hpmem
      obtain ⟨pr, _, hpr⟩ := List.mem_map.mp hpmem
      rw [← hpr]
  · rw [hone]
    norm_num
    rw [show barColor 35000 = "red" from (hbar 35000).mpr (by norm_num)]
  · rw [hone]
    norm_num
    rw [show barColor 5000 = "skyblue" from by unfold barColor; norm_num]

/-- Witness for C9: the empty store only prints the message. -/
theorem chart_color_threshold_witness :
    plot_category_expenses emptyStore = PlotOutcome.message "No expenses to display." :=
  chart_color_threshold.2.2.1 emptyStore rfl

/-- C10 counterexamples: accepted "0999-01-01" comes back as "999-01-01"
(`strftime`'s `%Y` drops the leading zero), and accepted "2025-08-1٣" — its
parsed year is 2025 — comes back as "2025-08-13" (`strftime` prints ASCII
digits), so on both the round trip is not the identity. -/
theorem roundtrip_counterexamples :
    (get_valid_date_accepts "0999-01-01" = true ∧
      get_valid_date_result "0999-01-01" = some "999-01-01" ∧
      get_valid_date_result "0999-01-01" ≠ some "0999-01-01") ∧
    (get_valid_date_accepts "2025-08-1٣" = true ∧
      get_valid_date_result "2025-08-1٣" = some "2025-08-13" ∧
      get_valid_date_result "2025-08-1٣" ≠ some "2025-08-1٣") := by
  refine ⟨⟨by decide, by decide, ?_⟩, ⟨by decide, by decide, ?_⟩⟩
  · intro h
    rw [show get_valid_date_result "0999-01-01" = some "999-01-01" from by decide] at h
    exact absurd (Option.some.inj h) (by decide)
  · intro h
    rw [show get_valid_date_result "2025-08-1٣" = some "2025-08-13" from by decide] at h
    exact absurd (Option.some.inj h) (by decide)

/-- C10 (amended): for every accepted input consisting of ASCII characters
whose parsed year is at least 1000, the string `get_valid_date` returns
equals the accepted input unchanged; an accepted year below 1000 loses its
leading zeros and an accepted non-ASCII digit is replaced by its ASCII
form, so the round trip is not the identity there. -/
theorem roundtrip_identity_year_ge_1000 :
    ∀ (raw : String) (y m d : Nat),
      parseYmd raw.data = some (y, m, d) → (∀ c ∈ raw.data, c.toNat < 128) →
        1000 ≤ y → get_valid_date_result raw = some raw := by
  intro raw y m d hp hascii hy
  obtain ⟨y1, y2, y3, y4, m1, m2, d1, d2, hdata, hy1, hy2, hy3, hy4, hm1, hm2, hday,
    hyeq, hmeq, hdeq, _, _, _, _, _⟩ := parseYmd_some_shape hp
  have hmem : ∀ c ∈ ([y1, y2, y3, y4, '-', m1, m2, '-', d1, d2] : List Char),
      c.toNat < 128 := by
    rw [← hdata]
    exact hascii
  have hay1 : isAsciiDigit y1 = true := pyDigit_ascii_of_lt128 hy1 (hmem y1 (by simp))
  have hay2 : isAsciiDigit y2 = true := pyDigit_ascii_of_lt128 hy2 (hmem y2 (by simp))
  have hay3 : isAsciiDigit y3 = true := pyDigit_ascii_of_lt128 hy3 (hmem y3 (by simp))
  have hay4 : isAsciiDigit y4 = true := pyDigit_ascii_of_lt128 hy4 (hmem y4 (by simp))
  obtain ⟨had1, hpd2⟩ := dayMatch_digits hday
  have had2 : isAsciiDigit d2 = true := pyDigit_ascii_of_lt128 hpd2 (hmem d2 (by simp))
  have hlen : raw.length = 10 := by
    show raw.data.length = 10
    rw [hdata]
    rfl
  have hg4 : raw.data.getD 4 ' ' = '-' := by rw [hdata]; rfl
  have hg7 : raw.data.getD 7 ' ' = '-' := by rw [hdata]; rfl
  have hres : get_valid_date_result raw = some (strftimeYmd y m d) := by
    unfold get_valid_date_result
    rw [if_neg (by rw [hlen, hg4, hg7]; decide), hp]
  rw [hres]
  congr 1
  subst hyeq hmeq hdeq
  rw [strftimeYmd_roundtrip hay1 hay2 hay3 hay4 hm1 hm2 had1 had2 hy]
  cases raw
  exact congrArg String.mk hdata.symm

/-- Witness for C10's amended theorem: "2025-08-03" round-trips unchanged. -/
theorem roundtrip_identity_year_ge_1000_witness :
    get_valid_date_result "2025-08-03" = some "2025-08-03" :=
  roundtrip_identity_year_ge_1000 "2025-08-03" 2025 8 3 (by decide) (by decide) (by decide)
